import Mathlib

/-!
Shallow embedding of the SnapHutao → Starward UIGF converter
(`process_metadata.py` and `sh_to_starward.py`).

JSON values are modelled by an inductive `Json`; Python dicts coming from
parsed JSON are modelled as insertion-ordered association lists
`List (String × α)` with unique keys, where assignment `d[k] = v` updates the
first occurrence in place (keeping its position) or appends a fresh pair, and
`d.get(k)` reads the first occurrence — exactly the observable behaviour of a
Python `dict`.  Python truthiness of an `Optional[str]` (`None` and `""` are
falsy) is the boolean `truthy`.  Fallible code (pydantic validation, the
converter's fail-closed path) is modelled with `Except`.
-/

/-- A JSON value, as produced by `json.load`. -/
inductive Json where
  | null : Json
  | bool (b : Bool) : Json
  | num (n : Int) : Json
  | str (s : String) : Json
  | arr (elems : List Json) : Json
  | obj (fields : List (String × Json)) : Json

/-- Python truthiness of an `Optional[str]` value: `None` and `""` are falsy. -/
def truthy : Option String → Bool
  | none => false
  | some s => s ≠ ""

/-- Python `x or ""` on an `Optional[str]`: the string when present, else `""`.
(`some ""` also yields `""`, matching Python, where `"" or ""` is `""`.) -/
def optstr (o : Option String) : String := o.getD ""

/-- Python `d.get(k)` on an insertion-ordered dict modelled as an association list. -/
def lookupKey {α : Type} : List (String × α) → String → Option α
  | [], _ => none
  | p :: rest, k => if p.1 = k then some p.2 else lookupKey rest k

/-- Python `d[k] = v` on an insertion-ordered dict: update the first occurrence of
`k` in place, or append `(k, v)` when `k` is absent. -/
def setKey {α : Type} : List (String × α) → String → α → List (String × α)
  | [], k, v => [(k, v)]
  | p :: rest, k, v => if p.1 = k then (k, v) :: rest else p :: setKey rest k v

/-- Structure `StarwardMetaItem` (metadata entry keyed by `item_id`), from
`process_metadata.py` lines 43–47. -/
structure StarwardMetaItem where
  name : String
  item_type : Option String
  rank_type : Option String
  item_id : String
  deriving DecidableEq, Repr

/-- Structure `StarwardMetaDB` (the item metadata store), from `process_metadata.py`
lines 50–54: a dict mapping item ids to `StarwardMetaItem`. -/
structure StarwardMetaDB where
  by_id : List (String × StarwardMetaItem)
  deriving DecidableEq, Repr

/-- Structure `StarwardRecord`, from `process_metadata.py` lines 11–26: one Unified
gacha record; every declared field is optional, plus an open `extra` bag. -/
structure StarwardRecord where
  uigf_gacha_type : Option String := none
  uid : Option String := none
  id : Option String := none
  gacha_type : Option String := none
  name : Option String := none
  item_type : Option String := none
  rank_type : Option String := none
  time : Option String := none
  item_id : Option String := none
  count : Option String := none
  lang : Option String := none
  extra : List (String × Json) := []

/-- Structure `SnapHutaoRecord`, from `sh_to_starward.py` lines 43–51: a Vendor-B
record, carrying fewer descriptive fields. -/
structure SnapHutaoRecord where
  uigf_gacha_type : Option String := none
  gacha_type : Option String := none
  item_id : Option String := none
  time : Option String := none
  id : Option String := none
  extra : List (String × Json) := []

/-- Structure `StarwardUserBundle`, from `process_metadata.py` lines 29–33. -/
structure StarwardUserBundle where
  uid : String
  timezone : Option Int := none
  lang : Option String := none
  list : List StarwardRecord := []

/-- Structure `SnapHutaoUserBundle`, from `sh_to_starward.py` lines 54–57. -/
structure SnapHutaoUserBundle where
  uid : String
  timezone : Option Int := none
  list : List SnapHutaoRecord := []

/-- Structure `StarwardUIGF`, from `process_metadata.py` lines 36–40. -/
structure StarwardUIGF where
  info : List (String × Json)
  hk4e : List StarwardUserBundle := []
  hkrpg : Option (List Json) := none
  nap : Option (List Json) := none

/-- Structure `SnapHutaoUIGF`, from `sh_to_starward.py` lines 59–61. -/
structure SnapHutaoUIGF where
  info : List (String × Json)
  hk4e : List SnapHutaoUserBundle := []

/-- The fill-only update applied by `merge_meta_db` to an existing target
entry `t` from a source entry `s` (`process_metadata.py` lines 346–352):
each of `name`, `item_type`, `rank_type` is written only when the target
field is falsy and the source field is truthy. -/
def fill_meta_from_item (t s : StarwardMetaItem) : StarwardMetaItem :=
  { t with
    name := if t.name = "" ∧ s.name ≠ "" then s.name else t.name
    item_type := if truthy t.item_type = false ∧ truthy s.item_type = true
      then s.item_type else t.item_type
    rank_type := if truthy t.rank_type = false ∧ truthy s.rank_type = true
      then s.rank_type else t.rank_type }

/-- The fill-only update applied by `StarwardMetaDB.add_from_record` to an
existing entry (`process_metadata.py` lines 70–77). -/
def fill_meta_from_record (t : StarwardMetaItem) (rec : StarwardRecord) :
    StarwardMetaItem :=
  { t with
    name := if t.name = "" ∧ truthy rec.name = true then optstr rec.name else t.name
    item_type := if truthy t.item_type = false ∧ truthy rec.item_type = true
      then rec.item_type else t.item_type
    rank_type := if truthy t.rank_type = false ∧ truthy rec.rank_type = true
      then rec.rank_type else t.rank_type }

/-- One iteration of the loop in `merge_meta_db` (`process_metadata.py`
lines 337–352): absent ids are appended verbatim (with `item_id` set to the
key), present ids are filled field-by-field, only where empty. -/
def merge_step (into : List (String × StarwardMetaItem))
    (p : String × StarwardMetaItem) : List (String × StarwardMetaItem) :=
  match lookupKey into p.1 with
  | none => into ++
      [(p.1, { name := p.2.name, item_type := p.2.item_type,
               rank_type := p.2.rank_type, item_id := p.1 })]
  | some t => setKey into p.1 (fill_meta_from_item t p.2)

/-- Function `merge_meta_db(into, src)`, `process_metadata.py` lines 335–352
(returning the mutated `into`). -/
def merge_meta_db (into src : StarwardMetaDB) : StarwardMetaDB :=
  ⟨src.by_id.foldl merge_step into.by_id⟩

/-- Method `StarwardMetaDB.add_from_record`, `process_metadata.py` lines 56–77
(returning the mutated store). -/
def add_from_record (db : StarwardMetaDB) (rec : StarwardRecord) :
    StarwardMetaDB :=
  if truthy rec.item_id = false then db
  else
    let iid := optstr rec.item_id
    match lookupKey db.by_id iid with
    | none => ⟨db.by_id ++
        [(iid, { name := optstr rec.name, item_type := rec.item_type,
                 rank_type := rec.rank_type, item_id := iid })]⟩
    | some t => ⟨setKey db.by_id iid (fill_meta_from_record t rec)⟩

/-- A store-mutating operation of the metadata merge engine: a whole-store
merge (`merge_meta_db`) or a single record fill (`add_from_record`). -/
inductive MetaOp where
  | mergeOp (src : StarwardMetaDB) : MetaOp
  | fillOp (rec : StarwardRecord) : MetaOp

/-- Apply one merge-engine operation. -/
def applyMetaOp (db : StarwardMetaDB) : MetaOp → StarwardMetaDB
  | .mergeOp src => merge_meta_db db src
  | .fillOp rec => add_from_record db rec

/-- Apply a sequence of merge-engine operations, oldest first. -/
def applyMetaOps (db : StarwardMetaDB) (ops : List MetaOp) : StarwardMetaDB :=
  ops.foldl applyMetaOp db

/-- The fail-closed test of `convert_snap_hutao_to_starward`
(`sh_to_starward.py` line 120): the record's item id (possibly `None`) is
unresolved when it is absent from the store or its entry has
`item_type is None` or `rank_type is None`. -/
def unresolved_in (db : StarwardMetaDB) (iid : Option String) : Bool :=
  match iid with
  | none => true
  | some i =>
    match lookupKey db.by_id i with
    | none => true
    | some m => m.item_type = none ∨ m.rank_type = none

/-- Conversion of one Vendor-B record (`sh_to_starward.py` lines 117–139):
fail closed with the offending item id when unresolved, otherwise copy the
identifying/time fields, take `name`/`item_type`/`rank_type` from the store,
default `count` to `"1"` and `lang` to `"zh-cn"`, and pass the extra bag on
only when non-empty (an empty bag and an omitted bag are both `[]`). -/
def convert_record (db : StarwardMetaDB) (uid : String)
    (srec : SnapHutaoRecord) : Except (Option String) StarwardRecord :=
  let meta := match srec.item_id with
    | none => none
    | some i => lookupKey db.by_id i
  match meta with
  | none => .error srec.item_id
  | some m =>
    if m.item_type = none ∨ m.rank_type = none then .error srec.item_id
    else .ok
      { uigf_gacha_type := srec.uigf_gacha_type
        gacha_type := srec.gacha_type
        item_id := srec.item_id
        time := srec.time
        id := srec.id
        uid := some uid
        name := some m.name
        item_type := m.item_type
        rank_type := m.rank_type
        count := some "1"
        lang := some "zh-cn"
        extra := if srec.extra.isEmpty then [] else srec.extra }

/-- The inner record loop of `convert_snap_hutao_to_starward`
(`sh_to_starward.py` lines 117–140): convert in order, aborting the whole
conversion at the first unresolved record. -/
def convert_records (db : StarwardMetaDB) (uid : String) :
    List SnapHutaoRecord → Except (Option String) (List StarwardRecord)
  | [] => .ok []
  | r :: rs =>
    match convert_record db uid r with
    | .error e => .error e
    | .ok out =>
      match convert_records db uid rs with
      | .error e => .error e
      | .ok outs => .ok (out :: outs)

/-- The outer user loop of `convert_snap_hutao_to_starward`
(`sh_to_starward.py` lines 114–141): each bundle keeps `uid` and `timezone`
and gets the default user-level `lang = "zh-cn"`. -/
def convert_bundles (db : StarwardMetaDB) :
    List SnapHutaoUserBundle → Except (Option String) (List StarwardUserBundle)
  | [] => .ok []
  | u :: us =>
    match convert_records db u.uid u.list with
    | .error e => .error e
    | .ok recs =>
      match convert_bundles db us with
      | .error e => .error e
      | .ok rest =>
        .ok ({ uid := u.uid, timezone := u.timezone, lang := some "zh-cn",
               list := recs } :: rest)

/-- Function `convert_snap_hutao_to_starward`, `sh_to_starward.py` lines 110–142.
The output header is the input header with `export_app` overridden; failure
(`UnresolvedMetadataError`) carries the offending item id and yields no
output document at all. -/
def convert_snap_hutao_to_starward (snap : SnapHutaoUIGF)
    (db : StarwardMetaDB) : Except (Option String) StarwardUIGF :=
  match convert_bundles db snap.hk4e with
  | .error e => .error e
  | .ok bundles =>
    .ok { info := setKey snap.info "export_app"
            (Json.str "Converted from Snap Hutao")
          hk4e := bundles, hkrpg := some [], nap := some [] }

/-- Python `str()` on the JSON scalars a mapping file contains as item ids
(numbers and strings; the remaining constructors do not occur as mapping
ids and are given fixed placeholder renderings). -/
def py_str : Json → String
  | .str s => s
  | .num n => toString n
  | .null => "None"
  | .bool true => "True"
  | .bool false => "False"
  | .arr _ => "<arr>"
  | .obj _ => "<obj>"

/-- The loop body of `UIGF_id_name_mapping` (`process_metadata.py`
lines 109–114): one mapping row `name ↦ ids` writes `id_to_name[str(id)] =
name` for each id, where a non-list value counts as a single id. -/
def mapping_row (acc : List (String × String)) (row : String × Json) :
    List (String × String) :=
  match row.2 with
  | .arr ids => ids.foldl (fun a i => setKey a (py_str i) row.1) acc
  | v => setKey acc (py_str v) row.1

/-- The `id_to_name` result of `UIGF_id_name_mapping`
(`process_metadata.py` lines 103–115), built from the parsed mapping
object's rows in order. -/
def UIGF_id_name_mapping (fields : List (String × Json)) :
    List (String × String) :=
  fields.foldl mapping_row []

/-- Function `build_meta_db_from_mapping`, `process_metadata.py` lines 117–122:
every id of `id_to_name` becomes one entry with only `name` and `item_id`
populated. -/
def build_meta_db_from_mapping (fields : List (String × Json)) :
    StarwardMetaDB :=
  ⟨(UIGF_id_name_mapping fields).foldl
    (fun acc p => setKey acc p.1 ⟨p.2, none, none, p.1⟩) []⟩

/-- The `(id, name)` pairs contributed by a mapping, in document order. -/
def flat_ids (fields : List (String × Json)) : List (String × String) :=
  fields.flatMap (fun row =>
    match row.2 with
    | .arr ids => ids.map (fun i => (py_str i, row.1))
    | v => [(py_str v, row.1)])

/-- Start code points of the runs of Unicode decimal digits (category
`Nd`): each run is the ten consecutive code points `lo .. lo+9` carrying
decimal values `0 .. 9`.  Generated from the Unicode character database
used by CPython; Python's `int()` accepts exactly these characters in a
digit-only string, with the stated values (scripts may be mixed). -/
def decimalDigitRunStarts : List Nat :=
  [48, 1632, 1776, 1984, 2406, 2534, 2662, 2790, 2918, 3046,
   3174, 3302, 3430, 3558, 3664, 3792, 3872, 4160, 4240, 6112,
   6160, 6470, 6608, 6784, 6800, 6992, 7088, 7232, 7248, 42528,
   43216, 43264, 43472, 43504, 43600, 44016, 65296, 66720, 68912, 69734,
   69872, 69942, 70096, 70384, 70736, 70864, 71248, 71360, 71472, 71904,
   72016, 72784, 73040, 73120, 92768, 92864, 93008, 120782, 120792, 120802,
   120812, 120822, 123200, 123632, 125264, 130032]

/-- Code-point ranges of the characters with `Numeric_Type=Digit` that are
not decimal digits (superscripts such as `²`, circled digits, …), from the
same Unicode character database: `str.isdigit` accepts them but `int()`
rejects them with `ValueError`. -/
def digitOnlyRanges : List (Nat × Nat) :=
  [(178, 179), (185, 185), (4969, 4977), (6618, 6618), (8304, 8304),
   (8308, 8313), (8320, 8329), (9312, 9320), (9332, 9340), (9352, 9360),
   (9450, 9450), (9461, 9469), (9471, 9471), (10102, 10110), (10112, 10120),
   (10122, 10130), (68160, 68163), (69216, 69224), (69714, 69722), (127232, 127242)]

/-- The decimal value of a Unicode decimal digit (category `Nd`), `none` on
every other character — the per-character conversion CPython's `int()`
uses. -/
def py_char_decimal (c : Char) : Option Nat :=
  (decimalDigitRunStarts.find? (fun lo => lo ≤ c.toNat && c.toNat ≤ lo + 9)).map
    (fun lo => c.toNat - lo)

/-- Per-character Python digit test: decimal digits plus the
`Numeric_Type=Digit` characters. -/
def py_char_isdigit (c : Char) : Bool :=
  (py_char_decimal c).isSome ||
    digitOnlyRanges.any (fun r => r.1 ≤ c.toNat && c.toNat ≤ r.2)

/-- Python `str.isdigit`: non-empty and every character a digit (decimal
or not). -/
def py_str_isdigit (s : String) : Bool :=
  !s.data.isEmpty && s.data.all py_char_isdigit

/-- Python `int()` on a digit-only string: succeeds exactly when every
character is a decimal digit (of any script), concatenating the decimal
values; `none` models the `ValueError` raised on a `Numeric_Type=Digit`
character such as `"²"`. -/
def py_int_digits (s : String) : Option Nat :=
  s.data.foldl
    (fun acc c =>
      match acc, py_char_decimal c with
      | some n, some d => some (10 * n + d)
      | _, _ => none)
    (some 0)

/-- Positional (code-point) lexicographic `≤` on character lists, the order
Python uses to compare strings. -/
def chars_le : List Char → List Char → Bool
  | [], _ => true
  | _ :: _, [] => false
  | a :: as, b :: bs =>
    if a.toNat = b.toNat then chars_le as bs else decide (a.toNat < b.toNat)

/-- The sort key of `prompt_missing_meta_fields` (`process_metadata.py`
lines 132–134), as a `≤` test on ids whose key computation does not raise:
`(0, int(k))` for digit keys, `(1, k)` otherwise, compared as Python
tuples.  (For a digit id that `int()` rejects the program's key raises
instead of producing a value; `find_incomplete` models that case with its
fallback branch, so the `getD 0` default is never reached there.) -/
def pend_le (a b : String) : Bool :=
  match py_str_isdigit a, py_str_isdigit b with
  | true, true => decide ((py_int_digits a).getD 0 ≤ (py_int_digits b).getD 0)
  | true, false => true
  | false, true => false
  | false, false => chars_le a.data b.data

/-- Relation form of `pend_le` on store pairs, for sorting by key. -/
def pend_rel (p q : String × StarwardMetaItem) : Prop :=
  pend_le p.1 q.1 = true

instance : DecidableRel pend_rel := fun p q => by
  unfold pend_rel; infer_instance

/-- Whether computing the Python sort key raises for some id of the store:
a digit-like id (`str.isdigit` true) that `int()` rejects, such as
`"²"`. -/
def sort_key_raises (db : StarwardMetaDB) : Bool :=
  db.by_id.any (fun p => py_str_isdigit p.1 && (py_int_digits p.1).isNone)

/-- The `items` list of `prompt_missing_meta_fields` (`process_metadata.py`
lines 130–137): the store's pairs sorted by the numeric-first key, except
that when computing some key raises, the `except` branch keeps the store's
insertion order unsorted. -/
def pend_items (db : StarwardMetaDB) : List (String × StarwardMetaItem) :=
  if sort_key_raises db then db.by_id
  else List.insertionSort pend_rel db.by_id

/-- The pending-entry collection of `prompt_missing_meta_fields`
(`process_metadata.py` lines 129–143, the `find_incomplete` contract of the
spec): from the (sorted, or insertion-ordered on fallback) items, keep
exactly the entries with truthy `item_id` and `name` that miss `item_type`
or `rank_type`. -/
def find_incomplete (db : StarwardMetaDB) :
    List (String × StarwardMetaItem) :=
  (pend_items db).filter
    (fun p => p.2.item_id ≠ "" && p.2.name ≠ "" &&
      (!truthy p.2.item_type || !truthy p.2.rank_type))

/-- Method `MetaFillWizard.save_current` (`process_metadata.py` lines 264–269),
acting on the current entry with the operator's selections `var_type` and
`var_rank`: each of `item_type`/`rank_type` is assigned only when still
falsy at submission time (the CLI fallback at lines 306–325 guards the same
way). -/
def save_current (meta : StarwardMetaItem) (var_type var_rank : String) :
    StarwardMetaItem :=
  { meta with
    item_type := if truthy meta.item_type = true then meta.item_type
      else some var_type
    rank_type := if truthy meta.rank_type = true then meta.rank_type
      else some var_rank }

/-- pydantic validation of an `Optional[str] = None` field: absent or JSON
`null` gives `None`, a JSON string gives the string, anything else fails. -/
def validate_opt_str (fs : List (String × Json)) (k : String) :
    Except String (Option String) :=
  match lookupKey fs k with
  | none => .ok none
  | some .null => .ok none
  | some (.str s) => .ok (some s)
  | some _ => .error k

/-- pydantic validation of an `Optional[int] = None` field. -/
def validate_opt_int (fs : List (String × Json)) (k : String) :
    Except String (Option Int) :=
  match lookupKey fs k with
  | none => .ok none
  | some .null => .ok none
  | some (.num n) => .ok (some n)
  | some _ => .error k

/-- pydantic validation of a required `str` field: must be present and a
JSON string (the empty string is a perfectly valid `str`). -/
def validate_str (fs : List (String × Json)) (k : String) :
    Except String String :=
  match lookupKey fs k with
  | some (.str s) => .ok s
  | _ => .error k

/-- pydantic validation of the declared `extra: Dict[str, Any] = {}` field:
absent gives the empty bag, a JSON object gives its pairs, anything else
fails. -/
def validate_extra (fs : List (String × Json)) :
    Except String (List (String × Json)) :=
  match lookupKey fs "extra" with
  | none => .ok []
  | some (.obj pairs) => .ok pairs
  | some _ => .error "extra"

/-- pydantic validation of one `SnapHutaoRecord` (`sh_to_starward.py`
lines 43–51): all declared fields optional. -/
def validate_snap_record (j : Json) : Except String SnapHutaoRecord :=
  match j with
  | .obj fs => do
    let ugt ← validate_opt_str fs "uigf_gacha_type"
    let gt ← validate_opt_str fs "gacha_type"
    let iid ← validate_opt_str fs "item_id"
    let tm ← validate_opt_str fs "time"
    let rid ← validate_opt_str fs "id"
    let ex ← validate_extra fs
    .ok { uigf_gacha_type := ugt, gacha_type := gt, item_id := iid,
          time := tm, id := rid, extra := ex }
  | _ => .error "record"

/-- pydantic validation of a list of Vendor-B records. -/
def validate_snap_records : List Json → Except String (List SnapHutaoRecord)
  | [] => .ok []
  | j :: js => do
    let r ← validate_snap_record j
    let rs ← validate_snap_records js
    .ok (r :: rs)

/-- pydantic validation of one `SnapHutaoUserBundle` (`sh_to_starward.py`
lines 54–57): `uid: str` is required (any string, empty included),
`timezone` is optional, and an absent `list` defaults to the empty list. -/
def validate_snap_list (fs : List (String × Json)) :
    Except String (List SnapHutaoRecord) :=
  match lookupKey fs "list" with
  | none => .ok []
  | some (.arr js) => validate_snap_records js
  | some _ => .error "list"

def validate_snap_bundle (j : Json) : Except String SnapHutaoUserBundle :=
  match j with
  | .obj fs =>
    match validate_str fs "uid" with
    | .error e => .error e
    | .ok u =>
      match validate_opt_int fs "timezone" with
      | .error e => .error e
      | .ok tz =>
        match validate_snap_list fs with
        | .error e => .error e
        | .ok l => .ok { uid := u, timezone := tz, list := l }
  | _ => .error "bundle"

/-- pydantic validation of one `StarwardRecord` (`process_metadata.py`
lines 11–26). -/
def validate_starward_record (j : Json) : Except String StarwardRecord :=
  match j with
  | .obj fs => do
    let ugt ← validate_opt_str fs "uigf_gacha_type"
    let u ← validate_opt_str fs "uid"
    let rid ← validate_opt_str fs "id"
    let gt ← validate_opt_str fs "gacha_type"
    let nm ← validate_opt_str fs "name"
    let it ← validate_opt_str fs "item_type"
    let rt ← validate_opt_str fs "rank_type"
    let tm ← validate_opt_str fs "time"
    let iid ← validate_opt_str fs "item_id"
    let cnt ← validate_opt_str fs "count"
    let lg ← validate_opt_str fs "lang"
    let ex ← validate_extra fs
    .ok { uigf_gacha_type := ugt, uid := u, id := rid, gacha_type := gt,
          name := nm, item_type := it, rank_type := rt, time := tm,
          item_id := iid, count := cnt, lang := lg, extra := ex }
  | _ => .error "record"

/-- pydantic validation of a list of Unified records. -/
def validate_starward_records :
    List Json → Except String (List StarwardRecord)
  | [] => .ok []
  | j :: js => do
    let r ← validate_starward_record j
    let rs ← validate_starward_records js
    .ok (r :: rs)

/-- pydantic validation of one `StarwardUserBundle` (`process_metadata.py`
lines 29–33): `uid: str` is required (any string, empty included), the rest
optional; an absent `list` defaults to the empty list. -/
def validate_starward_list (fs : List (String × Json)) :
    Except String (List StarwardRecord) :=
  match lookupKey fs "list" with
  | none => .ok []
  | some (.arr js) => validate_starward_records js
  | some _ => .error "list"

def validate_starward_bundle (j : Json) : Except String StarwardUserBundle :=
  match j with
  | .obj fs =>
    match validate_str fs "uid" with
    | .error e => .error e
    | .ok u =>
      match validate_opt_int fs "timezone" with
      | .error e => .error e
      | .ok tz =>
        match validate_opt_str fs "lang" with
        | .error e => .error e
        | .ok lg =>
          match validate_starward_list fs with
          | .error e => .error e
          | .ok l => .ok { uid := u, timezone := tz, lang := lg, list := l }
  | _ => .error "bundle"

/-- pydantic validation of a required `name: str` together with the
optional classification fields of `StarwardMetaItem` — the per-entry step
of `read_starward_meta_db` (`StarwardMetaItem(**meta)`,
`process_metadata.py` line 90). -/
def validate_meta_item (j : Json) : Except String StarwardMetaItem :=
  match j with
  | .obj fs =>
    match validate_str fs "name" with
    | .error e => .error e
    | .ok nm =>
      match validate_opt_str fs "item_type" with
      | .error e => .error e
      | .ok it =>
        match validate_opt_str fs "rank_type" with
        | .error e => .error e
        | .ok rt =>
          match validate_str fs "item_id" with
          | .error e => .error e
          | .ok iid =>
            .ok { name := nm, item_type := it, rank_type := rt, item_id := iid }
  | _ => .error "meta"

/-- The entry loop of `read_starward_meta_db` (`process_metadata.py`
lines 89–90): validate each entry in order and assign it into the store,
aborting at the first malformed entry. -/
def read_meta_entries (acc : List (String × StarwardMetaItem)) :
    List (String × Json) → Except String (List (String × StarwardMetaItem))
  | [] => .ok acc
  | (iid, mj) :: rest =>
    match validate_meta_item mj with
    | .error e => .error e
    | .ok item => read_meta_entries (setKey acc iid item) rest

/-- Function `read_starward_meta_db`, `process_metadata.py` lines 84–91: the parsed
root must be a JSON object; `data.get("by_id", {})` tolerates a missing
mapping field (empty store), while a non-object root or a non-object
`by_id` value fails (`AttributeError` in the source, the spec's
`FormatError`). -/
def read_starward_meta_db (j : Json) : Except String StarwardMetaDB :=
  match j with
  | .obj fs =>
    match lookupKey fs "by_id" with
    | none => .ok ⟨[]⟩
    | some (.obj entries) =>
      match read_meta_entries [] entries with
      | .error e => .error e
      | .ok l => .ok ⟨l⟩
    | some _ => .error "by_id"
  | _ => .error "root"

theorem lookupKey_append_some {α : Type} {l1 l2 : List (String × α)}
    {k : String} {v : α} (h : lookupKey l1 k = some v) :
    lookupKey (l1 ++ l2) k = some v := by
  induction l1 with
  | nil => simp [lookupKey] at h
  | cons p rest ih =>
    by_cases hpk : p.1 = k
    · simp [lookupKey, hpk] at h ⊢; exact h
    · simp [lookupKey, hpk] at h ⊢; exact ih h

theorem lookupKey_append_none {α : Type} {l1 : List (String × α)}
    {k : String} (l2 : List (String × α)) (h : lookupKey l1 k = none) :
    lookupKey (l1 ++ l2) k = lookupKey l2 k := by
  induction l1 with
  | nil => simp [lookupKey]
  | cons p rest ih =>
    by_cases hpk : p.1 = k
    · simp [lookupKey, hpk] at h
    · simp [lookupKey, hpk] at h ⊢; exact ih h

theorem lookupKey_setKey_self {α : Type} (l : List (String × α))
    (k : String) (v : α) : lookupKey (setKey l k v) k = some v := by
  induction l with
  | nil => simp [setKey, lookupKey]
  | cons p rest ih =>
    by_cases hpk : p.1 = k
    · simp [setKey, hpk, lookupKey]
    · simp [setKey, hpk, lookupKey, ih]

theorem lookupKey_setKey_ne {α : Type} (l : List (String × α))
    {k k' : String} (v : α) (h : k' ≠ k) :
    lookupKey (setKey l k v) k' = lookupKey l k' := by
  induction l with
  | nil =>
    simp only [setKey, lookupKey]
    rw [if_neg (fun hh => h hh.symm)]
  | cons p rest ih =>
    by_cases hpk : p.1 = k
    · simp only [setKey, if_pos hpk, lookupKey]
      rw [if_neg (fun hh => h hh.symm),
        if_neg (fun hh => h (hpk.symm.trans hh).symm)]
    · simp only [setKey, if_neg hpk, lookupKey]
      by_cases hpk' : p.1 = k'
      · rw [if_pos hpk', if_pos hpk']
      · rw [if_neg hpk', if_neg hpk', ih]

theorem setKey_lookup_self {α : Type} {l : List (String × α)} {k : String}
    {v : α} (h : lookupKey l k = some v) : setKey l k v = l := by
  induction l with
  | nil => simp [lookupKey] at h
  | cons p rest ih =>
    obtain ⟨p1, p2⟩ := p
    by_cases hpk : p1 = k
    · simp only [lookupKey, if_pos hpk] at h
      simp only [setKey, if_pos hpk]
      rw [← hpk, Option.some_inj.mp h]
    · simp only [lookupKey, if_neg hpk] at h
      simp only [setKey, if_neg hpk, ih h]

theorem setKey_absent {α : Type} {l : List (String × α)} {k : String}
    (v : α) (h : lookupKey l k = none) : setKey l k v = l ++ [(k, v)] := by
  induction l with
  | nil => simp [setKey]
  | cons p rest ih =>
    by_cases hpk : p.1 = k
    · simp [lookupKey, hpk] at h
    · simp [lookupKey, hpk] at h
      simp [setKey, hpk, ih h]

/-- Non-overwrite relation between an entry and a later version of it: each
of `name`, `item_type`, `rank_type`, once truthy, keeps its exact value. -/
def fieldsPreserved (m m' : StarwardMetaItem) : Prop :=
  (m.name ≠ "" → m'.name = m.name) ∧
  (truthy m.item_type = true → m'.item_type = m.item_type) ∧
  (truthy m.rank_type = true → m'.rank_type = m.rank_type)

theorem fieldsPreserved_refl (m : StarwardMetaItem) : fieldsPreserved m m :=
  ⟨fun _ => rfl, fun _ => rfl, fun _ => rfl⟩

theorem fieldsPreserved_trans {a b c : StarwardMetaItem}
    (h1 : fieldsPreserved a b) (h2 : fieldsPreserved b c) :
    fieldsPreserved a c := by
  refine ⟨fun h => ?_, fun h => ?_, fun h => ?_⟩
  · rw [h2.1 (by rw [h1.1 h]; exact h), h1.1 h]
  · rw [h2.2.1 (by rw [h1.2.1 h]; exact h), h1.2.1 h]
  · rw [h2.2.2 (by rw [h1.2.2 h]; exact h), h1.2.2 h]

theorem fill_item_preserves (t s : StarwardMetaItem) :
    fieldsPreserved t (fill_meta_from_item t s) := by
  refine ⟨fun h => ?_, fun h => ?_, fun h => ?_⟩ <;>
    simp [fill_meta_from_item, h]

theorem fill_record_preserves (t : StarwardMetaItem) (r : StarwardRecord) :
    fieldsPreserved t (fill_meta_from_record t r) := by
  refine ⟨fun h => ?_, fun h => ?_, fun h => ?_⟩ <;>
    simp [fill_meta_from_record, h]

theorem lookupKey_merge_step {l : List (String × StarwardMetaItem)}
    (p : String × StarwardMetaItem) {k : String} {m : StarwardMetaItem}
    (h : lookupKey l k = some m) :
    ∃ m', lookupKey (merge_step l p) k = some m' ∧ fieldsPreserved m m' := by
  obtain ⟨pk, ps⟩ := p
  by_cases hpk : pk = k
  · subst hpk
    rw [merge_step, h]
    exact ⟨fill_meta_from_item m ps, lookupKey_setKey_self .., fill_item_preserves ..⟩
  · rw [merge_step]
    cases hl : lookupKey l pk with
    | none =>
      exact ⟨m, lookupKey_append_some h, fieldsPreserved_refl m⟩
    | some t =>
      exact ⟨m, (lookupKey_setKey_ne _ _ (fun hh => hpk hh.symm)).trans h,
        fieldsPreserved_refl m⟩

theorem lookupKey_merge_fold (src : List (String × StarwardMetaItem))
    {l : List (String × StarwardMetaItem)} {k : String}
    {m : StarwardMetaItem} (h : lookupKey l k = some m) :
    ∃ m', lookupKey (src.foldl merge_step l) k = some m' ∧
      fieldsPreserved m m' := by
  induction src generalizing l m with
  | nil => exact ⟨m, h, fieldsPreserved_refl m⟩
  | cons p rest ih =>
    obtain ⟨m1, hm1, hp1⟩ := lookupKey_merge_step p h
    obtain ⟨m2, hm2, hp2⟩ := ih hm1
    exact ⟨m2, hm2, fieldsPreserved_trans hp1 hp2⟩

theorem lookupKey_add_from_record (db : StarwardMetaDB)
    (rec : StarwardRecord) {k : String} {m : StarwardMetaItem}
    (h : lookupKey db.by_id k = some m) :
    ∃ m', lookupKey (add_from_record db rec).by_id k = some m' ∧
      fieldsPreserved m m' := by
  rw [add_from_record]
  by_cases ht : truthy rec.item_id = false
  · simp only [ht, if_true]
    exact ⟨m, h, fieldsPreserved_refl m⟩
  · simp only [ht, if_false]
    by_cases hik : optstr rec.item_id = k
    · subst hik
      rw [h]
      exact ⟨fill_meta_from_record m rec, lookupKey_setKey_self ..,
        fill_record_preserves ..⟩
    · cases hl : lookupKey db.by_id (optstr rec.item_id) with
      | none =>
        exact ⟨m, lookupKey_append_some h, fieldsPreserved_refl m⟩
      | some t =>
        exact ⟨m, (lookupKey_setKey_ne _ _ (fun hh => hik hh.symm)).trans h,
          fieldsPreserved_refl m⟩

/-- C2: for every metadata store entry and every sequence of merge
(`merge_meta_db`) and record-fill (`add_from_record`) operations, each of
the fields `name`, `item_type` (category), and `rank_type` (rarity), once
non-empty, is never altered by any subsequent such operation, regardless of
the value offered by the source. -/
theorem fill_only_invariant (db : StarwardMetaDB) (ops : List MetaOp)
    (iid : String) (m : StarwardMetaItem)
    (h : lookupKey db.by_id iid = some m) :
    ∃ m', lookupKey (applyMetaOps db ops).by_id iid = some m' ∧
      (m.name ≠ "" → m'.name = m.name) ∧
      (truthy m.item_type = true → m'.item_type = m.item_type) ∧
      (truthy m.rank_type = true → m'.rank_type = m.rank_type) := by
  induction ops generalizing db m with
  | nil => exact ⟨m, h, fieldsPreserved_refl m⟩
  | cons op rest ih =>
    have hstep : ∃ m1, lookupKey (applyMetaOp db op).by_id iid = some m1 ∧
        fieldsPreserved m m1 := by
      cases op with
      | mergeOp src => exact lookupKey_merge_fold src.by_id h
      | fillOp rec => exact lookupKey_add_from_record db rec h
    obtain ⟨m1, hm1, hp1⟩ := hstep
    obtain ⟨m2, hm2, hp2⟩ := ih _ _ hm1
    exact ⟨m2, hm2, fieldsPreserved_trans hp1 hp2⟩

/-- Witness for C2 at a concrete input: an entry whose three fields are all
non-empty keeps them through a merge offering conflicting values followed by
a record fill offering conflicting values. -/
theorem fill_only_invariant_witness :
    ∃ m', lookupKey (applyMetaOps
        ⟨[("7", ⟨"Keqing", some "角色", some "5", "7"⟩)]⟩
        [.mergeOp ⟨[("7", ⟨"Other", some "武器", some "4", "7"⟩)]⟩,
         .fillOp { name := some "Else", item_type := some "武器",
                   rank_type := some "1", item_id := some "7" }]).by_id
      "7" = some m' ∧
      (("Keqing" : String) ≠ "" → m'.name = "Keqing") ∧
      (truthy (some "角色") = true → m'.item_type = some "角色") ∧
      (truthy (some "5") = true → m'.rank_type = some "5") := by
  have h := fill_only_invariant
    ⟨[("7", ⟨"Keqing", some "角色", some "5", "7"⟩)]⟩
    [.mergeOp ⟨[("7", ⟨"Other", some "武器", some "4", "7"⟩)]⟩,
     .fillOp { name := some "Else", item_type := some "武器",
               rank_type := some "1", item_id := some "7" }]
    "7" ⟨"Keqing", some "角色", some "5", "7"⟩ (by decide)
  exact h

/-- Entry `t` already absorbs everything `s` has to offer: wherever `s` has a
truthy field, `t`'s corresponding field is truthy too, so a fill-only merge
of `s` into `t` writes nothing. -/
def filledWrt (t s : StarwardMetaItem) : Prop :=
  (s.name ≠ "" → t.name ≠ "") ∧
  (truthy s.item_type = true → truthy t.item_type = true) ∧
  (truthy s.rank_type = true → truthy t.rank_type = true)

theorem fill_item_of_filled {t s : StarwardMetaItem} (h : filledWrt t s) :
    fill_meta_from_item t s = t := by
  obtain ⟨h1, h2, h3⟩ := h
  cases t with
  | mk nm it rt iid =>
    simp only [fill_meta_from_item]
    congr 1
    · by_cases hs : s.name = ""
      · simp [hs]
      · simp [h1 hs]
    · by_cases hs : truthy s.item_type = true
      · simp [h2 hs]
      · simp [hs]
    · by_cases hs : truthy s.rank_type = true
      · simp [h3 hs]
      · simp [hs]

theorem filled_fill_item (t s : StarwardMetaItem) :
    filledWrt (fill_meta_from_item t s) s := by
  refine ⟨fun hs => ?_, fun hs => ?_, fun hs => ?_⟩
  · by_cases ht : t.name = "" <;> simp [fill_meta_from_item, ht, hs]
  · by_cases ht : truthy t.item_type = true <;>
      simp [fill_meta_from_item, ht, hs]
  · by_cases ht : truthy t.rank_type = true <;>
      simp [fill_meta_from_item, ht, hs]

theorem filledWrt_of_preserved {t t' s : StarwardMetaItem}
    (hf : filledWrt t s) (hp : fieldsPreserved t t') : filledWrt t' s := by
  refine ⟨fun hs => ?_, fun hs => ?_, fun hs => ?_⟩
  · rw [hp.1 (hf.1 hs)]; exact hf.1 hs
  · rw [hp.2.1 (hf.2.1 hs)]; exact hf.2.1 hs
  · rw [hp.2.2 (hf.2.2 hs)]; exact hf.2.2 hs

theorem merge_step_filled (l : List (String × StarwardMetaItem))
    (k : String) (s : StarwardMetaItem) :
    ∃ t, lookupKey (merge_step l (k, s)) k = some t ∧ filledWrt t s := by
  cases hl : lookupKey l k with
  | none =>
    have hstep : merge_step l (k, s) =
        l ++ [(k, ⟨s.name, s.item_type, s.rank_type, k⟩)] := by
      simp only [merge_step, hl]
    refine ⟨⟨s.name, s.item_type, s.rank_type, k⟩, ?_, ?_⟩
    · rw [hstep, lookupKey_append_none _ hl]
      simp [lookupKey]
    · exact ⟨fun h => h, fun h => h, fun h => h⟩
  | some t =>
    have hstep : merge_step l (k, s) = setKey l k (fill_meta_from_item t s) := by
      simp only [merge_step, hl]
    rw [hstep]
    exact ⟨fill_meta_from_item t s, lookupKey_setKey_self ..,
      filled_fill_item t s⟩

theorem merge_fold_filled (src : List (String × StarwardMetaItem))
    (l : List (String × StarwardMetaItem)) :
    ∀ p ∈ src, ∃ t, lookupKey (src.foldl merge_step l) p.1 = some t ∧
      filledWrt t p.2 := by
  induction src generalizing l with
  | nil => intro p hp; cases hp
  | cons q rest ih =>
    intro p hp
    rcases List.mem_cons.mp hp with hq | hrest
    · subst hq
      obtain ⟨t, ht, hf⟩ := merge_step_filled l p.1 p.2
      obtain ⟨t', ht', hp'⟩ := lookupKey_merge_fold rest ht
      exact ⟨t', ht', filledWrt_of_preserved hf hp'⟩
    · exact ih (merge_step l q) p hrest

theorem merge_step_of_filled {l : List (String × StarwardMetaItem)}
    {k : String} {s t : StarwardMetaItem} (h1 : lookupKey l k = some t)
    (h2 : filledWrt t s) : merge_step l (k, s) = l := by
  have hstep : merge_step l (k, s) = setKey l k (fill_meta_from_item t s) := by
    simp only [merge_step, h1]
  rw [hstep, fill_item_of_filled h2, setKey_lookup_self h1]

theorem merge_fold_of_filled {src l : List (String × StarwardMetaItem)}
    (h : ∀ p ∈ src, ∃ t, lookupKey l p.1 = some t ∧ filledWrt t p.2) :
    src.foldl merge_step l = l := by
  induction src with
  | nil => rfl
  | cons q rest ih =>
    obtain ⟨t, ht, hf⟩ := h q (List.mem_cons_self q rest)
    have hstep : merge_step l q = l := by
      obtain ⟨q1, q2⟩ := q
      exact merge_step_of_filled ht hf
    rw [List.foldl_cons, hstep]
    exact ih (fun p hp => h p (List.mem_cons_of_mem q hp))

/-- C3: merging the same source store into a target twice yields exactly the
same target store as merging it once (the second pass finds every source
field already absorbed and writes nothing). -/
theorem merge_meta_db_idempotent (T S : StarwardMetaDB) :
    merge_meta_db (merge_meta_db T S) S = merge_meta_db T S := by
  have h : S.by_id.foldl merge_step (merge_meta_db T S).by_id =
      (merge_meta_db T S).by_id :=
    merge_fold_of_filled (merge_fold_filled S.by_id T.by_id)
  calc merge_meta_db (merge_meta_db T S) S
      = ⟨S.by_id.foldl merge_step (merge_meta_db T S).by_id⟩ := rfl
    _ = ⟨(merge_meta_db T S).by_id⟩ := by rw [h]
    _ = merge_meta_db T S := rfl

theorem convert_record_unresolved (db : StarwardMetaDB) (uid : String)
    (srec : SnapHutaoRecord) (h : unresolved_in db srec.item_id = true) :
    convert_record db uid srec = .error srec.item_id := by
  cases hid : srec.item_id with
  | none => simp [convert_record, hid]
  | some i =>
    cases hl : lookupKey db.by_id i with
    | none => simp [convert_record, hid, hl]
    | some m =>
      rw [hid] at h
      simp only [unresolved_in, hl, decide_eq_true_eq] at h
      simp [convert_record, hid, hl, h]

theorem convert_record_resolved (db : StarwardMetaDB) (uid : String)
    (srec : SnapHutaoRecord) (h : unresolved_in db srec.item_id = false) :
    ∃ out, convert_record db uid srec = .ok out := by
  cases hid : srec.item_id with
  | none => rw [hid] at h; simp [unresolved_in] at h
  | some i =>
    rw [hid] at h
    cases hl : lookupKey db.by_id i with
    | none => simp [unresolved_in, hl] at h
    | some m =>
      simp only [unresolved_in, hl, decide_eq_false_iff_not] at h
      have hok : convert_record db uid srec = .ok
          { uigf_gacha_type := srec.uigf_gacha_type, uid := some uid,
            id := srec.id, gacha_type := srec.gacha_type,
            name := some m.name, item_type := m.item_type,
            rank_type := m.rank_type, time := srec.time, item_id := some i,
            count := some "1", lang := some "zh-cn",
            extra := if srec.extra.isEmpty then [] else srec.extra } := by
        simp [convert_record, hid, hl, h]
      exact ⟨_, hok⟩

theorem convert_records_error (db : StarwardMetaDB) (uid : String)
    (rs : List SnapHutaoRecord)
    (h : ∃ r ∈ rs, unresolved_in db r.item_id = true) :
    ∃ e, convert_records db uid rs = .error e ∧
      unresolved_in db e = true ∧ ∃ r ∈ rs, r.item_id = e := by
  induction rs with
  | nil => obtain ⟨r, hr, _⟩ := h; cases hr
  | cons r rest ih =>
    by_cases hr : unresolved_in db r.item_id = true
    · refine ⟨r.item_id, ?_, hr, r, List.mem_cons_self r rest, rfl⟩
      simp [convert_records, convert_record_unresolved db uid r hr]
    · have hrest : ∃ r' ∈ rest, unresolved_in db r'.item_id = true := by
        obtain ⟨r', hr', hu⟩ := h
        rcases List.mem_cons.mp hr' with heq | hmem
        · exact absurd (heq ▸ hu) hr
        · exact ⟨r', hmem, hu⟩
      obtain ⟨e, he, hu, r', hmem, heq⟩ := ih hrest
      obtain ⟨out, hout⟩ := convert_record_resolved db uid r (by simpa using hr)
      refine ⟨e, ?_, hu, r', List.mem_cons_of_mem r hmem, heq⟩
      simp [convert_records, hout, he]

theorem convert_records_ok (db : StarwardMetaDB) (uid : String)
    (rs : List SnapHutaoRecord)
    (h : ∀ r ∈ rs, unresolved_in db r.item_id = false) :
    ∃ outs, convert_records db uid rs = .ok outs := by
  induction rs with
  | nil => exact ⟨[], rfl⟩
  | cons r rest ih =>
    obtain ⟨out, hout⟩ :=
      convert_record_resolved db uid r (h r (List.mem_cons_self r rest))
    obtain ⟨outs, houts⟩ := ih (fun r' h' => h r' (List.mem_cons_of_mem r h'))
    exact ⟨out :: outs, by simp [convert_records, hout, houts]⟩

theorem convert_bundles_error (db : StarwardMetaDB)
    (us : List SnapHutaoUserBundle)
    (h : ∃ u ∈ us, ∃ r ∈ u.list, unresolved_in db r.item_id = true) :
    ∃ e, convert_bundles db us = .error e ∧
      unresolved_in db e = true ∧
      ∃ u ∈ us, ∃ r ∈ u.list, r.item_id = e := by
  induction us with
  | nil => obtain ⟨u, hu, _⟩ := h; cases hu
  | cons u rest ih =>
    by_cases hu : ∃ r ∈ u.list, unresolved_in db r.item_id = true
    · obtain ⟨e, he, hue, r, hmem, heq⟩ := convert_records_error db u.uid u.list hu
      refine ⟨e, ?_, hue, u, List.mem_cons_self u rest, r, hmem, heq⟩
      simp [convert_bundles, he]
    · have hrest : ∃ u' ∈ rest, ∃ r ∈ u'.list, unresolved_in db r.item_id = true := by
        obtain ⟨u', hu', hr⟩ := h
        rcases List.mem_cons.mp hu' with heq | hmem
        · exact absurd (heq ▸ hr) hu
        · exact ⟨u', hmem, hr⟩
      have hall : ∀ r ∈ u.list, unresolved_in db r.item_id = false := by
        intro r hr
        by_contra hc
        exact hu ⟨r, hr, by simpa using hc⟩
      obtain ⟨outs, houts⟩ := convert_records_ok db u.uid u.list hall
      obtain ⟨e, he, hue, u', hmem, hex⟩ := ih hrest
      refine ⟨e, ?_, hue, u', List.mem_cons_of_mem u hmem, hex⟩
      simp [convert_bundles, houts, he]

/-- C1 (amended): if any record of the Vendor-B document has an item id that
is absent from the store, or whose store entry has `item_type` or
`rank_type` unset (`None`), then `convert_snap_hutao_to_starward` fails with
an error naming an offending item id and produces no output document — the
`Except` result is all-or-nothing, never partial.  (An empty-**string**
`item_type`/`rank_type` is accepted by the code's `is None` test, see the
counterexample.) -/
theorem convert_fail_closed (snap : SnapHutaoUIGF) (db : StarwardMetaDB)
    (h : ∃ u ∈ snap.hk4e, ∃ r ∈ u.list, unresolved_in db r.item_id = true) :
    ∃ e, convert_snap_hutao_to_starward snap db = .error e ∧
      unresolved_in db e = true ∧
      ∃ u ∈ snap.hk4e, ∃ r ∈ u.list, r.item_id = e := by
  obtain ⟨e, he, hue, hex⟩ := convert_bundles_error db snap.hk4e h
  exact ⟨e, by simp [convert_snap_hutao_to_starward, he], hue, hex⟩

/-- Witness for C1 at the spec's own test input: a record with
`item_id="99"` absent from an empty store makes the conversion fail. -/
theorem convert_fail_closed_witness :
    ∃ e, convert_snap_hutao_to_starward
        ⟨[], [⟨"100000001", none, [{ item_id := some "99" }]⟩]⟩ ⟨[]⟩ =
        .error e ∧
      unresolved_in ⟨[]⟩ e = true ∧
      ∃ u ∈ [(⟨"100000001", none, [{ item_id := some "99" }]⟩ :
          SnapHutaoUserBundle)],
        ∃ r ∈ u.list, r.item_id = e :=
  convert_fail_closed ⟨[], [⟨"100000001", none, [{ item_id := some "99" }]⟩]⟩
    ⟨[]⟩
    ⟨⟨"100000001", none, [{ item_id := some "99" }]⟩,
      List.mem_singleton.mpr rfl,
      { item_id := some "99" }, List.mem_singleton.mpr rfl, rfl⟩

/-- Counterexample for C1 as stated: a store entry whose `item_type`
(category) is the **empty string** — empty in exactly the sense the fill and
resolver code uses — does not make `convert_snap_hutao_to_starward` raise;
the conversion succeeds, because the code tests `item_type is None`, not
emptiness. -/
theorem convert_fail_closed_counterexample :
    lookupKey (StarwardMetaDB.mk
        [("7", ⟨"Foo", some "", some "5", "7"⟩)]).by_id "7" =
      some ⟨"Foo", some "", some "5", "7"⟩ ∧
    (convert_snap_hutao_to_starward
        ⟨[], [⟨"100000001", none, [{ item_id := some "7" }]⟩]⟩
        ⟨[("7", ⟨"Foo", some "", some "5", "7"⟩)]⟩).isOk = true :=
  ⟨rfl, rfl⟩

theorem convert_record_ok_shape (db : StarwardMetaDB) (uid : String)
    (srec : SnapHutaoRecord) (iid : String) (m : StarwardMetaItem)
    (it rt : String) (h1 : srec.item_id = some iid)
    (h2 : lookupKey db.by_id iid = some m) (h3 : m.item_type = some it)
    (h4 : m.rank_type = some rt) :
    convert_record db uid srec = .ok
      { uigf_gacha_type := srec.uigf_gacha_type, uid := some uid,
        id := srec.id, gacha_type := srec.gacha_type, name := some m.name,
        item_type := some it, rank_type := some rt, time := srec.time,
        item_id := some iid, count := some "1", lang := some "zh-cn",
        extra := srec.extra } := by
  have hcond : ¬(m.item_type = none ∨ m.rank_type = none) := by
    simp [h3, h4]
  have hextra : (if srec.extra.isEmpty then [] else srec.extra) = srec.extra := by
    cases srec.extra <;> simp
  simp [convert_record, h1, h2, hcond, hextra, h3, h4]

/-- C4: for every Vendor-B record whose item id has a fully resolved store
entry, the converted Unified record copies `uigf_gacha_type`, `gacha_type`,
`item_id`, `time` and `id` verbatim, takes `name`, `item_type` and
`rank_type` from the store entry, defaults `count` to `"1"` and `lang` to
`"zh-cn"`, and carries the extra bag forward (an empty source bag yields an
empty output bag, i.e. no extra field). -/
theorem convert_resolved_record_shape (db : StarwardMetaDB) (uid : String)
    (srec : SnapHutaoRecord) (iid : String) (m : StarwardMetaItem)
    (it rt : String) (h1 : srec.item_id = some iid)
    (h2 : lookupKey db.by_id iid = some m) (h3 : m.item_type = some it)
    (h4 : m.rank_type = some rt) :
    convert_record db uid srec = .ok
      { uigf_gacha_type := srec.uigf_gacha_type, uid := some uid,
        id := srec.id, gacha_type := srec.gacha_type, name := some m.name,
        item_type := some it, rank_type := some rt, time := srec.time,
        item_id := some iid, count := some "1", lang := some "zh-cn",
        extra := srec.extra } :=
  convert_record_ok_shape db uid srec iid m it rt h1 h2 h3 h4

/-- Witness for C4 at the spec's own example: store entry
`{"item_id":"10","name":"Aqua Simulacra","item_type":"武器","rank_type":"5"}`
and Vendor-B record
`{"item_id":"10","time":"2024-01-01 00:00:00","gacha_type":"301"}` convert
to a record with `name="Aqua Simulacra"`, `item_type="武器"`,
`rank_type="5"`, `count="1"`, `lang="zh-cn"` and an empty extra bag. -/
theorem convert_resolved_record_shape_witness :
    convert_record ⟨[("10", ⟨"Aqua Simulacra", some "武器", some "5", "10"⟩)]⟩
      "100000001"
      { item_id := some "10", time := some "2024-01-01 00:00:00",
        gacha_type := some "301" } = .ok
      { uigf_gacha_type := none, uid := some "100000001", id := none,
        gacha_type := some "301", name := some "Aqua Simulacra",
        item_type := some "武器", rank_type := some "5",
        time := some "2024-01-01 00:00:00", item_id := some "10",
        count := some "1", lang := some "zh-cn", extra := [] } :=
  convert_resolved_record_shape
    ⟨[("10", ⟨"Aqua Simulacra", some "武器", some "5", "10"⟩)]⟩
    "100000001"
    { item_id := some "10", time := some "2024-01-01 00:00:00",
      gacha_type := some "301" }
    "10" ⟨"Aqua Simulacra", some "武器", some "5", "10"⟩ "武器" "5"
    rfl rfl rfl rfl

/-- C10: the fail-closed check does not inspect the store entry's `name`.
A record whose store entry has non-empty `item_type` and `rank_type` but an
empty-string `name` converts successfully, and the emitted Unified record's
`name` is the empty string. -/
theorem convert_ignores_store_name (db : StarwardMetaDB) (uid : String)
    (srec : SnapHutaoRecord) (iid : String) (m : StarwardMetaItem)
    (it rt : String) (h1 : srec.item_id = some iid)
    (h2 : lookupKey db.by_id iid = some m) (h0 : m.name = "")
    (h3 : m.item_type = some it) (h3t : it ≠ "")
    (h4 : m.rank_type = some rt) (h4t : rt ≠ "") :
    ∃ out, convert_record db uid srec = .ok out ∧ out.name = some "" :=
  ⟨_, convert_record_ok_shape db uid srec iid m it rt h1 h2 h3 h4,
    by simp [h0]⟩

/-- Witness for C10: a store entry with empty name but resolved
classification converts successfully to a record named `""`. -/
theorem convert_ignores_store_name_witness :
    ∃ out, convert_record ⟨[("42", ⟨"", some "武器", some "3", "42"⟩)]⟩
      "100000001" { item_id := some "42" } = .ok out ∧
      out.name = some "" :=
  convert_ignores_store_name ⟨[("42", ⟨"", some "武器", some "3", "42"⟩)]⟩
    "100000001" { item_id := some "42" } "42" ⟨"", some "武器", some "3", "42"⟩
    "武器" "3" rfl rfl rfl rfl (by decide) rfl (by decide)

/-- C7: when the operator submits an answer for a pending entry,
`save_current` writes only the fields still empty at submission time; a
field already truthy is never overwritten, even though the operator's
selection always carries a value for it; `name` and `item_id` are never
touched. -/
theorem save_current_no_overwrite (meta : StarwardMetaItem)
    (var_type var_rank : String) :
    (save_current meta var_type var_rank).name = meta.name ∧
    (save_current meta var_type var_rank).item_id = meta.item_id ∧
    (truthy meta.item_type = true →
      (save_current meta var_type var_rank).item_type = meta.item_type) ∧
    (truthy meta.item_type = false →
      (save_current meta var_type var_rank).item_type = some var_type) ∧
    (truthy meta.rank_type = true →
      (save_current meta var_type var_rank).rank_type = meta.rank_type) ∧
    (truthy meta.rank_type = false →
      (save_current meta var_type var_rank).rank_type = some var_rank) := by
  refine ⟨rfl, rfl, fun h => ?_, fun h => ?_, fun h => ?_, fun h => ?_⟩ <;>
    simp [save_current, h]

/-- Witness for C7: an entry whose `item_type` is already `"角色"` keeps it
when the operator explicitly selects `"武器"`, while its empty `rank_type`
receives the selected `"4"`. -/
theorem save_current_no_overwrite_witness :
    (save_current ⟨"Keqing", some "角色", none, "1002"⟩ "武器" "4").item_type =
      some "角色" ∧
    (save_current ⟨"Keqing", some "角色", none, "1002"⟩ "武器" "4").rank_type =
      some "4" :=
  ⟨(save_current_no_overwrite ⟨"Keqing", some "角色", none, "1002"⟩
      "武器" "4").2.2.1 (by decide),
   (save_current_no_overwrite ⟨"Keqing", some "角色", none, "1002"⟩
      "武器" "4").2.2.2.2.2 (by decide)⟩

theorem foldl_setKey_nodup {α : Type} (ps : List (String × α))
    (acc : List (String × α)) (hnd : (ps.map Prod.fst).Nodup)
    (hdisj : ∀ k ∈ ps.map Prod.fst, lookupKey acc k = none) :
    ps.foldl (fun a p => setKey a p.1 p.2) acc = acc ++ ps := by
  induction ps generalizing acc with
  | nil => simp
  | cons p rest ih =>
    obtain ⟨k, v⟩ := p
    simp only [List.foldl_cons]
    have h1 : lookupKey acc k = none := hdisj k (by simp)
    rw [setKey_absent v h1]
    have hnd2 := hnd
    rw [List.map_cons] at hnd2
    have hnotin : k ∉ rest.map Prod.fst := (List.nodup_cons.mp hnd2).1
    have hdisj' : ∀ k' ∈ rest.map Prod.fst,
        lookupKey (acc ++ [(k, v)]) k' = none := by
      intro k' hk'
      have hne : k ≠ k' := fun hh => hnotin (hh ▸ hk')
      rw [lookupKey_append_none _ (hdisj k' (by simp [hk']))]
      simp [lookupKey, hne]
    rw [ih _ (List.nodup_cons.mp hnd2).2 hdisj', List.append_assoc]
    rfl

theorem UIGF_mapping_foldl_flat (fields : List (String × Json))
    (acc : List (String × String)) :
    fields.foldl mapping_row acc =
      (flat_ids fields).foldl (fun a p => setKey a p.1 p.2) acc := by
  induction fields generalizing acc with
  | nil => simp [flat_ids]
  | cons row rest ih =>
    obtain ⟨nm, ids⟩ := row
    have hflat : flat_ids ((nm, ids) :: rest) =
        (match ids with
          | .arr l => l.map (fun i => (py_str i, nm))
          | v => [(py_str v, nm)]) ++ flat_ids rest := by
      simp [flat_ids]
    rw [List.foldl_cons, ih, hflat, List.foldl_append]
    congr 1
    cases ids <;> simp [mapping_row, List.foldl_map]

/-- C5: for every mapping whose flattened ids are pairwise distinct,
`build_meta_db_from_mapping` produces exactly one store entry per id
appearing in the mapping, in order, with `name` set to that id's display
name, `item_type` and `rank_type` absent, and `item_id` the stringified
id. -/
theorem build_meta_db_from_mapping_shape (fields : List (String × Json))
    (hnd : ((flat_ids fields).map Prod.fst).Nodup) :
    (build_meta_db_from_mapping fields).by_id =
      (flat_ids fields).map
        (fun p => (p.1, (⟨p.2, none, none, p.1⟩ : StarwardMetaItem))) := by
  have hmap : UIGF_id_name_mapping fields = flat_ids fields := by
    rw [UIGF_id_name_mapping, UIGF_mapping_foldl_flat fields [],
      foldl_setKey_nodup _ [] hnd (fun k _ => rfl)]
    rfl
  have hfold : (flat_ids fields).foldl
      (fun acc p => setKey acc p.1 (⟨p.2, none, none, p.1⟩ : StarwardMetaItem)) [] =
      ((flat_ids fields).map
        (fun p => (p.1, (⟨p.2, none, none, p.1⟩ : StarwardMetaItem)))).foldl
        (fun a q => setKey a q.1 q.2) [] := by
    rw [List.foldl_map]
  have hnd' : (((flat_ids fields).map
      (fun p => (p.1, (⟨p.2, none, none, p.1⟩ : StarwardMetaItem)))).map
        Prod.fst).Nodup := by
    rw [List.map_map]
    exact hnd
  rw [build_meta_db_from_mapping, hmap, hfold,
    foldl_setKey_nodup _ [] hnd' (fun k _ => rfl)]
  rfl

/-- Witness for C5 at the spec's example mapping
`{"Sword":[1,2], "Bow":3}`: exactly three entries with ids `"1"`, `"2"`,
`"3"`, names `"Sword"`, `"Sword"`, `"Bow"`, and empty category/rarity. -/
theorem build_meta_db_from_mapping_shape_witness :
    ((flat_ids [("Sword", Json.arr [Json.num 1, Json.num 2]),
        ("Bow", Json.num 3)]).map Prod.fst).Nodup ∧
    (build_meta_db_from_mapping [("Sword", Json.arr [Json.num 1, Json.num 2]),
        ("Bow", Json.num 3)]).by_id =
      [("1", ⟨"Sword", none, none, "1"⟩), ("2", ⟨"Sword", none, none, "2"⟩),
       ("3", ⟨"Bow", none, none, "3"⟩)] :=
  ⟨by decide,
   (build_meta_db_from_mapping_shape
      [("Sword", Json.arr [Json.num 1, Json.num 2]), ("Bow", Json.num 3)]
      (by decide)).trans (by decide)⟩

theorem chars_le_total : ∀ a b : List Char,
    chars_le a b = true ∨ chars_le b a = true := by
  intro a
  induction a with
  | nil => intro b; left; rfl
  | cons x xs ih =>
    intro b
    cases b with
    | nil => right; rfl
    | cons y ys =>
      by_cases hxy : x.toNat = y.toNat
      · rcases ih ys with h | h
        · left; simp [chars_le, hxy, h]
        · right; simp [chars_le, hxy.symm, h]
      · rcases Nat.lt_or_ge x.toNat y.toNat with h | h
        · left; simp [chars_le, hxy, h]
        · have hyx : y.toNat < x.toNat :=
            Nat.lt_of_le_of_ne h (fun hh => hxy hh.symm)
          have hne : y.toNat ≠ x.toNat := fun hh => hxy hh.symm
          right; simp [chars_le, hne, hyx]

theorem chars_le_trans : ∀ a b c : List Char, chars_le a b = true →
    chars_le b c = true → chars_le a c = true := by
  intro a
  induction a with
  | nil => intro b c _ _; rfl
  | cons x xs ih =>
    intro b c hab hbc
    cases b with
    | nil => simp [chars_le] at hab
    | cons y ys =>
      cases c with
      | nil => simp [chars_le] at hbc
      | cons z zs =>
        simp only [chars_le] at hab hbc ⊢
        by_cases hxy : x.toNat = y.toNat
        · rw [if_pos hxy] at hab
          by_cases hyz : y.toNat = z.toNat
          · rw [if_pos hyz] at hbc
            rw [if_pos (hxy.trans hyz)]
            exact ih ys zs hab hbc
          · rw [if_neg hyz] at hbc
            have hlt : y.toNat < z.toNat := of_decide_eq_true hbc
            have h1 : x.toNat ≠ z.toNat := by omega
            have h2 : x.toNat < z.toNat := by omega
            rw [if_neg h1]
            exact decide_eq_true h2
        · rw [if_neg hxy] at hab
          have hlt1 : x.toNat < y.toNat := of_decide_eq_true hab
          have hlt2 : y.toNat ≤ z.toNat := by
            by_cases hyz : y.toNat = z.toNat
            · omega
            · rw [if_neg hyz] at hbc
              have := of_decide_eq_true hbc
              omega
          have h1 : x.toNat ≠ z.toNat := by omega
          have h2 : x.toNat < z.toNat := by omega
          rw [if_neg h1]
          exact decide_eq_true h2

theorem pend_le_total (a b : String) :
    pend_le a b = true ∨ pend_le b a = true := by
  cases hda : py_str_isdigit a <;> cases hdb : py_str_isdigit b <;>
      simp only [pend_le, hda, hdb, decide_eq_true_eq]
  · exact chars_le_total a.data b.data
  · exact Or.inr trivial
  · exact Or.inl trivial
  · exact Nat.le_total ((py_int_digits a).getD 0) ((py_int_digits b).getD 0)

theorem pend_le_trans (a b c : String) (hab : pend_le a b = true)
    (hbc : pend_le b c = true) : pend_le a c = true := by
  cases hda : py_str_isdigit a <;> cases hdb : py_str_isdigit b <;>
      cases hdc : py_str_isdigit c <;>
      simp only [pend_le, hda, hdb, hdc, decide_eq_true_eq,
        Bool.false_eq_true] at hab hbc ⊢
  · exact chars_le_trans a.data b.data c.data hab hbc
  · exact Nat.le_trans hab hbc

theorem find_incomplete_sorted_rel (db : StarwardMetaDB)
    (h : sort_key_raises db = false) :
    List.Pairwise pend_rel (find_incomplete db) := by
  have hs : List.Pairwise pend_rel (pend_items db) := by
    rw [pend_items, if_neg (by simp [h])]
    exact @List.sorted_insertionSort _ pend_rel _
      ⟨fun p q => pend_le_total p.1 q.1⟩
      ⟨fun p q r hpq hqr => pend_le_trans p.1 q.1 r.1 hpq hqr⟩ db.by_id
  exact List.Pairwise.sublist (List.filter_sublist _) hs

theorem mem_find_incomplete (db : StarwardMetaDB)
    (p : String × StarwardMetaItem) :
    p ∈ find_incomplete db ↔ p ∈ db.by_id ∧ p.2.item_id ≠ "" ∧
      p.2.name ≠ "" ∧
      (truthy p.2.item_type = false ∨ truthy p.2.rank_type = false) := by
  have hperm : (pend_items db).Perm db.by_id := by
    rw [pend_items]
    split
    · exact List.Perm.refl _
    · exact List.perm_insertionSort pend_rel db.by_id
  rw [find_incomplete, List.mem_filter, hperm.mem_iff]
  simp [and_assoc, Bool.not_eq_true']

theorem find_incomplete_fallback (db : StarwardMetaDB)
    (h : sort_key_raises db = true) :
    find_incomplete db = db.by_id.filter
      (fun p => p.2.item_id ≠ "" && p.2.name ≠ "" &&
        (!truthy p.2.item_type || !truthy p.2.rank_type)) := by
  rw [find_incomplete, pend_items, if_pos h]

theorem pend_le_spec {a b : String} (h : pend_le a b = true) :
    (py_str_isdigit a = true → py_str_isdigit b = true →
      ∀ n m, py_int_digits a = some n → py_int_digits b = some m → n ≤ m) ∧
    (py_str_isdigit a = false → py_str_isdigit b = false ∧
      chars_le a.data b.data = true) := by
  cases hda : py_str_isdigit a <;> cases hdb : py_str_isdigit b <;>
      simp only [pend_le, hda, hdb, decide_eq_true_eq,
        Bool.false_eq_true, Bool.true_eq_false] at h ⊢
  · exact ⟨fun hf _ => hf.elim, fun _ => ⟨trivial, h⟩⟩
  · exact ⟨fun _ hf => hf.elim, fun hf => hf.elim⟩
  · refine ⟨fun _ _ n m hn hm => ?_, fun hf => hf.elim⟩
    rw [hn, hm] at h
    exact h

/-- C6 (amended): `find_incomplete` (the pending-collection step of
`prompt_missing_meta_fields`) returns exactly the store entries with a
non-empty `item_id` and a non-empty `name` that miss `item_type` (category)
or `rank_type` (rarity).  Whenever no digit-like id of the store is
rejected by `int()` (in particular for all-ASCII ids), the result is
ordered with digit ids first by integer value, followed by non-digit ids in
code-point lexical order; when some digit-like id makes `int()` raise, the
`except` branch keeps the store's insertion order.  On the store
`{"10","2","abc"}`, all incomplete, the order is `2, 10, abc`. -/
theorem find_incomplete_contract :
    (∀ (db : StarwardMetaDB) (p : String × StarwardMetaItem),
      p ∈ find_incomplete db ↔ p ∈ db.by_id ∧ p.2.item_id ≠ "" ∧
        p.2.name ≠ "" ∧
        (truthy p.2.item_type = false ∨ truthy p.2.rank_type = false)) ∧
    (∀ db : StarwardMetaDB, sort_key_raises db = false → List.Pairwise
      (fun p q : String × StarwardMetaItem =>
        (py_str_isdigit p.1 = true → py_str_isdigit q.1 = true →
          ∀ n m, py_int_digits p.1 = some n → py_int_digits q.1 = some m →
            n ≤ m) ∧
        (py_str_isdigit p.1 = false → py_str_isdigit q.1 = false ∧
          chars_le p.1.data q.1.data = true))
      (find_incomplete db)) ∧
    (∀ db : StarwardMetaDB, sort_key_raises db = true →
      find_incomplete db = db.by_id.filter
        (fun p => p.2.item_id ≠ "" && p.2.name ≠ "" &&
          (!truthy p.2.item_type || !truthy p.2.rank_type))) ∧
    (find_incomplete ⟨[("10", ⟨"Ten", none, none, "10"⟩),
        ("2", ⟨"Two", none, none, "2"⟩),
        ("abc", ⟨"Abc", none, none, "abc"⟩)]⟩).map Prod.fst =
      ["2", "10", "abc"] := by
  refine ⟨mem_find_incomplete, fun db h => ?_, find_incomplete_fallback,
    by decide⟩
  exact (find_incomplete_sorted_rel db h).imp (fun hpq => pend_le_spec hpq)

/-- Counterexample for C6 as stated: the id `"²"` (U+00B2) satisfies
Python's `str.isdigit` but `int("²")` raises `ValueError`, so the `except`
branch of `prompt_missing_meta_fields` keeps the store's insertion order:
on the store with ids `"b", "a", "²"` (in that insertion order, all
incomplete) the pending order is `b, a, ²`, although `"a"` and `"b"` are
both non-numeric and `"a"` precedes `"b"` lexically — refuting the claimed
universal ordering. -/
theorem find_incomplete_contract_counterexample :
    (find_incomplete ⟨[("b", ⟨"B", none, none, "b"⟩),
        ("a", ⟨"A", none, none, "a"⟩),
        ("²", ⟨"Sup", none, none, "²"⟩)]⟩).map Prod.fst = ["b", "a", "²"] ∧
    py_str_isdigit "a" = false ∧ py_str_isdigit "b" = false ∧
    chars_le "a".data "b".data = true ∧ chars_le "b".data "a".data = false ∧
    py_str_isdigit "²" = true ∧ py_int_digits "²" = none := by
  decide

/-- Witness for C6: on the example store the entry with id `"2"` is
returned among the pending entries, and the order of the no-raise branch is
pairwise numeric-first. -/
theorem find_incomplete_contract_witness :
    (("2", (⟨"Two", none, none, "2"⟩ : StarwardMetaItem)) ∈
      find_incomplete ⟨[("10", ⟨"Ten", none, none, "10"⟩),
        ("2", ⟨"Two", none, none, "2"⟩),
        ("abc", ⟨"Abc", none, none, "abc"⟩)]⟩) ∧
    List.Pairwise
      (fun p q : String × StarwardMetaItem =>
        (py_str_isdigit p.1 = true → py_str_isdigit q.1 = true →
          ∀ n m, py_int_digits p.1 = some n → py_int_digits q.1 = some m →
            n ≤ m) ∧
        (py_str_isdigit p.1 = false → py_str_isdigit q.1 = false ∧
          chars_le p.1.data q.1.data = true))
      (find_incomplete ⟨[("10", ⟨"Ten", none, none, "10"⟩),
        ("2", ⟨"Two", none, none, "2"⟩),
        ("abc", ⟨"Abc", none, none, "abc"⟩)]⟩) :=
  ⟨(find_incomplete_contract.1 ⟨[("10", ⟨"Ten", none, none, "10"⟩),
      ("2", ⟨"Two", none, none, "2"⟩),
      ("abc", ⟨"Abc", none, none, "abc"⟩)]⟩
    ("2", ⟨"Two", none, none, "2"⟩)).mpr (by decide),
   find_incomplete_contract.2.1 ⟨[("10", ⟨"Ten", none, none, "10"⟩),
      ("2", ⟨"Two", none, none, "2"⟩),
      ("abc", ⟨"Abc", none, none, "abc"⟩)]⟩ (by decide)⟩

/-- Counterexample for C8 as stated: a Vendor-B user bundle whose `uid` is
the **empty** string passes validation (yielding the bundle with
`uid = ""`), so validation does not require a *non-empty* `user_id` — the
pydantic declaration `uid: str` only requires the field to be present and a
string. -/
theorem bundle_empty_uid_accepted :
    validate_snap_bundle (.obj [("uid", .str "")]) =
      .ok { uid := "", timezone := none, list := [] } ∧
    validate_starward_bundle (.obj [("uid", .str "")]) =
      .ok { uid := "", timezone := none, lang := none, list := [] } :=
  ⟨rfl, rfl⟩

/-- C8 (amended): for both dialect readers, each user bundle is required to
have a `user_id` present as a string (validation fails when the `uid` field
is absent; the empty string is accepted), and an absent record list
defaults to the empty list rather than causing an error. -/
theorem bundle_uid_required_list_defaults :
    (∀ fs : List (String × Json), lookupKey fs "uid" = none →
      ∃ e, validate_snap_bundle (.obj fs) = .error e) ∧
    (∀ fs : List (String × Json), lookupKey fs "uid" = none →
      ∃ e, validate_starward_bundle (.obj fs) = .error e) ∧
    (∀ (fs : List (String × Json)) (u : String) (b : SnapHutaoUserBundle),
      lookupKey fs "uid" = some (.str u) →
      validate_snap_bundle (.obj fs) = .ok b → b.uid = u) ∧
    (∀ (fs : List (String × Json)) (u : String) (b : StarwardUserBundle),
      lookupKey fs "uid" = some (.str u) →
      validate_starward_bundle (.obj fs) = .ok b → b.uid = u) ∧
    (∀ (fs : List (String × Json)) (b : SnapHutaoUserBundle),
      lookupKey fs "list" = none →
      validate_snap_bundle (.obj fs) = .ok b → b.list = []) ∧
    (∀ (fs : List (String × Json)) (b : StarwardUserBundle),
      lookupKey fs "list" = none →
      validate_starward_bundle (.obj fs) = .ok b → b.list = []) := by
  have hsnap_str : ∀ fs, lookupKey fs "uid" = none →
      validate_str fs "uid" = .error "uid" := by
    intro fs h; simp [validate_str, h]
  refine ⟨?_, ?_, ?_, ?_, ?_, ?_⟩
  · intro fs h
    exact ⟨"uid", by simp [validate_snap_bundle, hsnap_str fs h]⟩
  · intro fs h
    exact ⟨"uid", by simp [validate_starward_bundle, hsnap_str fs h]⟩
  · intro fs u b hu hok
    have hstr : validate_str fs "uid" = .ok u := by simp [validate_str, hu]
    simp only [validate_snap_bundle, hstr] at hok
    cases htz : validate_opt_int fs "timezone" with
    | error e => rw [htz] at hok; simp at hok
    | ok tz =>
      rw [htz] at hok
      cases hl : validate_snap_list fs with
      | error e => rw [hl] at hok; simp at hok
      | ok l =>
        rw [hl] at hok
        simp only [Except.ok.injEq] at hok
        rw [← hok]
  · intro fs u b hu hok
    have hstr : validate_str fs "uid" = .ok u := by simp [validate_str, hu]
    simp only [validate_starward_bundle, hstr] at hok
    cases htz : validate_opt_int fs "timezone" with
    | error e => rw [htz] at hok; simp at hok
    | ok tz =>
      rw [htz] at hok
      cases hlg : validate_opt_str fs "lang" with
      | error e => rw [hlg] at hok; simp at hok
      | ok lg =>
        rw [hlg] at hok
        cases hl : validate_starward_list fs with
        | error e => rw [hl] at hok; simp at hok
        | ok l =>
          rw [hl] at hok
          simp only [Except.ok.injEq] at hok
          rw [← hok]
  · intro fs b hlist hok
    have hl : validate_snap_list fs = .ok [] := by
      simp [validate_snap_list, hlist]
    simp only [validate_snap_bundle] at hok
    cases hstr : validate_str fs "uid" with
    | error e => rw [hstr] at hok; simp at hok
    | ok u =>
      rw [hstr] at hok
      cases htz : validate_opt_int fs "timezone" with
      | error e => rw [htz] at hok; simp at hok
      | ok tz =>
        rw [htz, hl] at hok
        simp only [Except.ok.injEq] at hok
        rw [← hok]
  · intro fs b hlist hok
    have hl : validate_starward_list fs = .ok [] := by
      simp [validate_starward_list, hlist]
    simp only [validate_starward_bundle] at hok
    cases hstr : validate_str fs "uid" with
    | error e => rw [hstr] at hok; simp at hok
    | ok u =>
      rw [hstr] at hok
      cases htz : validate_opt_int fs "timezone" with
      | error e => rw [htz] at hok; simp at hok
      | ok tz =>
        rw [htz] at hok
        cases hlg : validate_opt_str fs "lang" with
        | error e => rw [hlg] at hok; simp at hok
        | ok lg =>
          rw [hlg, hl] at hok
          simp only [Except.ok.injEq] at hok
          rw [← hok]

/-- Witness for C8 at concrete inputs: a bundle object with no `uid` field
fails validation. -/
theorem bundle_uid_required_list_defaults_witness :
    ∃ e, validate_snap_bundle (.obj [("timezone", .num 8)]) = .error e :=
  bundle_uid_required_list_defaults.1 [("timezone", .num 8)] rfl

theorem read_meta_entries_ok_all {es : List (String × Json)}
    {acc l : List (String × StarwardMetaItem)}
    (h : read_meta_entries acc es = .ok l) :
    ∀ p ∈ es, ∃ m, validate_meta_item p.2 = .ok m := by
  induction es generalizing acc with
  | nil => intro p hp; cases hp
  | cons q rest ih =>
    obtain ⟨iid, mj⟩ := q
    intro p hp
    cases hv : validate_meta_item mj with
    | error e =>
      rw [read_meta_entries, hv] at h
      simp at h
    | ok item =>
      rw [read_meta_entries, hv] at h
      rcases List.mem_cons.mp hp with heq | hmem
      · subst heq
        exact ⟨item, hv⟩
      · exact ih h p hmem

/-- C9: `read_starward_meta_db` fails whenever the root JSON shape does
not match an object with a top-level id-to-entry mapping — a non-object
root, a non-object `by_id` value, and a malformed entry all fail — except
that a root object with the `by_id` field missing is tolerated and yields
the empty store. -/
theorem read_starward_meta_db_shape :
    (∀ j : Json, (∀ fs, j ≠ Json.obj fs) →
      ∃ e, read_starward_meta_db j = .error e) ∧
    (∀ fs : List (String × Json), lookupKey fs "by_id" = none →
      read_starward_meta_db (.obj fs) = .ok ⟨[]⟩) ∧
    (∀ (fs : List (String × Json)) (v : Json),
      lookupKey fs "by_id" = some v → (∀ es, v ≠ Json.obj es) →
      ∃ e, read_starward_meta_db (.obj fs) = .error e) ∧
    (∀ (fs : List (String × Json)) (es : List (String × Json))
      (p : String × Json) (e0 : String),
      lookupKey fs "by_id" = some (.obj es) → p ∈ es →
      validate_meta_item p.2 = .error e0 →
      ∃ e, read_starward_meta_db (.obj fs) = .error e) := by
  refine ⟨?_, ?_, ?_, ?_⟩
  · intro j h
    cases j with
    | obj fs => exact absurd rfl (h fs)
    | null => exact ⟨"root", rfl⟩
    | bool b => exact ⟨"root", rfl⟩
    | num n => exact ⟨"root", rfl⟩
    | str s => exact ⟨"root", rfl⟩
    | arr xs => exact ⟨"root", rfl⟩
  · intro fs h
    simp [read_starward_meta_db, h]
  · intro fs v hv h
    cases v with
    | obj es => exact absurd rfl (h es)
    | null => exact ⟨"by_id", by simp [read_starward_meta_db, hv]⟩
    | bool b => exact ⟨"by_id", by simp [read_starward_meta_db, hv]⟩
    | num n => exact ⟨"by_id", by simp [read_starward_meta_db, hv]⟩
    | str s => exact ⟨"by_id", by simp [read_starward_meta_db, hv]⟩
    | arr xs => exact ⟨"by_id", by simp [read_starward_meta_db, hv]⟩
  · intro fs es p e0 hby hp hbad
    cases hread : read_meta_entries [] es with
    | error e => exact ⟨e, by simp [read_starward_meta_db, hby, hread]⟩
    | ok l =>
      obtain ⟨m, hm⟩ := read_meta_entries_ok_all hread p hp
      rw [hbad] at hm
      cases hm

/-- Witness for C9 at concrete inputs: a root missing the `by_id` field
loads as the empty store, and an array root fails. -/
theorem read_starward_meta_db_shape_witness :
    read_starward_meta_db (.obj [("info", .null)]) = .ok ⟨[]⟩ ∧
    ∃ e, read_starward_meta_db (.arr []) = .error e :=
  ⟨read_starward_meta_db_shape.2.1 [("info", .null)] rfl,
   read_starward_meta_db_shape.1 (.arr []) (fun fs h => by cases h)⟩
